import Mathlib

/-!
Verification of the branch lifecycle and query operations of
`src/app/src/lib/git/branch.ts` (GitHub Desktop fork).

The TypeScript module orchestrates external collaborators: the command
gateway `git` (core.ts), ref listing/deletion (`getBranches`, `deleteRef`),
remote context resolution (`gitNetworkArguments`, `getRemoteURL`,
`envForRemoteOperation`, `getFallbackUrlForProxyResolve`) and a logger.
Those collaborators are outside the excerpt, so a call's outcome is an
input here (an environment record) and each observable interaction is
recorded in an explicit event trace.  JavaScript `String.prototype.split`
is modelled by a structurally recursive single-character split (the source
only ever splits on `'\n'` and `'\0'`).
-/

namespace BranchTs

/-- Branch type discriminator, from `models/branch.ts` (`BranchType`). -/
inductive BranchType
  | Local
  | Remote
deriving DecidableEq, Repr

/-- The fields of `Branch` (models/branch.ts) that `branch.ts` reads:
`name`, `nameWithoutRemote`, `type` and the optional associated `remote`. -/
structure Branch where
  name : String
  nameWithoutRemote : String
  type : BranchType
  remote : Option String
deriving DecidableEq, Repr

/-- Repository handle: `branch.ts` only ever reads `repository.path`. -/
structure Repository where
  path : String
deriving DecidableEq, Repr

/-- Credential bundle (`IGitAccount`): opaque to this module, passed through
to the remote-context collaborators. -/
structure IGitAccount where
  login : String
  endpoint : String
deriving DecidableEq, Repr

/-- Classified git error vocabulary (dugite's `GitError`), restricted to the
members this module distinguishes plus representatives of all others. -/
inductive DugiteError
  | BranchDeletionFailed
  | SSHAuthenticationFailed
  | HTTPSAuthenticationFailed
  | PushNotFastForward
  | other (code : Nat)
deriving DecidableEq, Repr

/-- A failure escaping a gateway call: either a classified error outside the
caller's expected set, propagated with its original classification, or an
unexpected exit code for which no classification was found. -/
inductive GitFailure
  | classified (e : DugiteError)
  | unexpectedExit (code : Int)
deriving DecidableEq, Repr

/-- Raw outcome of executing the external git process once: exit code,
captured output and the classified error its stderr/stdout would parse to
(if any).  This is the input the command gateway interprets. -/
structure GitExecOutcome where
  exitCode : Int
  stdout : String
  stderr : String
  gitError : Option DugiteError
deriving DecidableEq, Repr

/-- The result the gateway hands back to `branch.ts` (`IGitResult`): exit
code, stdout, and the classified error when one was recognized as expected. -/
structure IGitResult where
  exitCode : Int
  stdout : String
  gitError : Option DugiteError
deriving DecidableEq, Repr

/-- Observable interactions of `branch.ts` with its collaborators, in order:
a git command execution (label and argument list), resolution of network
arguments, the remote-deletion push (its argument list and the URL handed to
`envForRemoteOperation`), a `deleteRef` call, and a `log.error` line. -/
inductive Event
  | gitCmd (label : String) (args : List String)
  | networkArgsResolved
  | push (args : List String) (envUrl : String)
  | deleteRefCall (ref : String)
  | logError (msg : String)
deriving DecidableEq, Repr

/-- Modelled from the spec: the Command Gateway (`git` in `core.ts`, not part
of the excerpt).  Section 2: it executes a command with "a caller-supplied
set of exit codes considered non-fatal" and "returns exit code, stdout,
stderr, and a classified error code when applicable"; section 7: a command
failure is "propagated as-is unless the specific exit code/error is in the
operation's recognized expected set".  So: an exit code in
`successExitCodes` yields a plain result; otherwise the classified error is
returned in the result when it is in `expectedErrors`, and propagated as a
failure when it is not (or when no classification exists). -/
def gitGateway (raw : GitExecOutcome) (successExitCodes : List Int)
    (expectedErrors : List DugiteError) : Except GitFailure IGitResult :=
  if raw.exitCode ∈ successExitCodes then
    Except.ok { exitCode := raw.exitCode, stdout := raw.stdout, gitError := none }
  else
    match raw.gitError with
    | some e =>
      if e ∈ expectedErrors then
        Except.ok { exitCode := raw.exitCode, stdout := raw.stdout, gitError := some e }
      else Except.error (GitFailure.classified e)
    | none => Except.error (GitFailure.unexpectedExit raw.exitCode)

/-- Single-character split on a character list; the recursive core of the
model of JavaScript `String.prototype.split`. -/
def splitCharList (sep : Char) : List Char → List (List Char)
  | [] => [[]]
  | c :: cs =>
    if c = sep then [] :: splitCharList sep cs
    else
      match splitCharList sep cs with
      | [] => [[c]]
      | hd :: tl => (c :: hd) :: tl

/-- Model of JavaScript `s.split(sep)` for a one-character separator: the
empty string yields `[""]`, a trailing separator yields a trailing `""`. -/
def splitOnChar (sep : Char) (s : String) : List String :=
  (splitCharList sep s.data).map (fun l => String.mk l)

/-- Model of JavaScript `s.startsWith(p)`. -/
def jsStartsWith (s p : String) : Bool :=
  p.data.isPrefixOf s.data

/-- Argument list built by `createBranch` (branch.ts lines 29-37): branch
from the start point when one is given, and `--no-track` is appended when
the start point begins with `remotes/`. -/
def createBranchArgs (name : String) (startPoint : Option String) : List String :=
  let args : List String :=
    match startPoint with
    | some sp => ["branch", name, sp]
    | none => ["branch", name]
  match startPoint with
  | some sp => if jsStartsWith sp "remotes/" then args ++ ["--no-track"] else args
  | none => args

/-- Environment for `createBranch`: the outcome of its git invocation and
the branches the `getBranches` re-query would report for the new ref. -/
structure CreateEnv where
  createOutcome : GitExecOutcome
  branchesFound : List Branch
deriving Repr

/-- Shallow embedding of `createBranch` (branch.ts lines 24-46): run the
creation command through the gateway, then return the first branch the
re-query finds, or `none` when it finds nothing. -/
def createBranch (repository : Repository) (name : String)
    (startPoint : Option String) (env : CreateEnv) :
    (List Event) × Except GitFailure (Option Branch) :=
  let args := createBranchArgs name startPoint
  match gitGateway env.createOutcome [0] [] with
  | Except.error e => ([Event.gitCmd "createBranch" args], Except.error e)
  | Except.ok _ => ([Event.gitCmd "createBranch" args], Except.ok env.branchesFound.head?)

/-- Shallow embedding of `deleteLocalBranch` (branch.ts lines 65-71): a
forced local deletion `branch -D`, returning `true` when the gateway call
succeeds. -/
def deleteLocalBranch (branchName : String) (outcome : GitExecOutcome) :
    (List Event) × Except GitFailure Bool :=
  ([Event.gitCmd "deleteLocalBranch" ["branch", "-D", branchName]],
    (gitGateway outcome [0] []).map (fun _ => true))

/-- Environment for `deleteBranch`: outcomes of the local deletion, the
network-argument resolution, the remote URL lookup (`Except.error` models a
rejected promise; `Except.ok none` a `null` result), the fallback proxy URL,
the remote push, and the `deleteRef` call. -/
structure DeleteEnv where
  deleteLocalOutcome : GitExecOutcome
  networkArguments : List String
  remoteURLOutcome : Except String (Option String)
  fallbackUrl : String
  pushOutcome : GitExecOutcome
  deleteRefOutcome : Except GitFailure Unit
deriving Repr

/-- Remote half of `deleteBranch` (branch.ts lines 90-121): resolve network
arguments; resolve the remote URL, logging and falling back to the proxy
URL when the lookup rejects or is falsy (JavaScript `|| fallback`); push the
empty ref with `BranchDeletionFailed` declared expected; when that precise
classified error comes back, reconcile by deleting
`refs/remotes/<remote>/<nameWithoutRemote>`. -/
def remoteDeletionStep (branch : Branch) (remoteName : String) (env : DeleteEnv) :
    (List Event) × Except GitFailure Bool :=
  let urlTrace : List Event :=
    match env.remoteURLOutcome with
    | Except.error _ =>
      [Event.logError ("Could not resolve remote url for remote " ++ remoteName)]
    | Except.ok _ => []
  let remoteUrl : String :=
    match env.remoteURLOutcome with
    | Except.error _ => env.fallbackUrl
    | Except.ok none => env.fallbackUrl
    | Except.ok (some u) => if u = "" then env.fallbackUrl else u
  let args := env.networkArguments ++ ["push", remoteName, ":" ++ branch.nameWithoutRemote]
  let baseTrace := Event.networkArgsResolved :: urlTrace ++ [Event.push args remoteUrl]
  match gitGateway env.pushOutcome [0] [DugiteError.BranchDeletionFailed] with
  | Except.error e => (baseTrace, Except.error e)
  | Except.ok result =>
    if result.gitError = some DugiteError.BranchDeletionFailed then
      let ref := "refs/remotes/" ++ remoteName ++ "/" ++ branch.nameWithoutRemote
      match env.deleteRefOutcome with
      | Except.error e => (baseTrace ++ [Event.deleteRefCall ref], Except.error e)
      | Except.ok _ => (baseTrace ++ [Event.deleteRefCall ref], Except.ok true)
    else (baseTrace, Except.ok true)

/-- Shallow embedding of `deleteBranch` (branch.ts lines 77-125): delete the
local branch first when `branch.type` is Local (a failure there aborts);
then, when `includeRemote` holds and `branch.remote` is truthy (JavaScript
`includeRemote && remoteName`), run the remote deletion step; finally return
`true`. -/
def deleteBranch (repository : Repository) (branch : Branch)
    (account : Option IGitAccount) (includeRemote : Bool) (env : DeleteEnv) :
    (List Event) × Except GitFailure Bool :=
  let lstep :=
    if branch.type = BranchType.Local then
      deleteLocalBranch branch.name env.deleteLocalOutcome
    else ([], Except.ok true)
  match lstep.2 with
  | Except.error e => (lstep.1, Except.error e)
  | Except.ok _ =>
    match includeRemote, branch.remote with
    | true, some remoteName =>
      if remoteName = "" then (lstep.1, Except.ok true)
      else
        let rstep := remoteDeletionStep branch remoteName env
        (lstep.1 ++ rstep.1, rstep.2)
    | _, _ => (lstep.1, Except.ok true)

/-- Shallow embedding of `getBranchesPointedAt` (branch.ts lines 134-160):
gateway call with success exit codes {0, 1, 129}; exit codes 1 and 129 yield
`none`; otherwise the newline-split stdout with its trailing element
removed (`split('\n').slice(0, -1)`). -/
def getBranchesPointedAt (repository : Repository) (commitish : String)
    (outcome : GitExecOutcome) : Except GitFailure (Option (List String)) :=
  match gitGateway outcome [0, 1, 129] [] with
  | Except.error e => Except.error e
  | Except.ok r =>
    if r.exitCode = 1 ∨ r.exitCode = 129 then Except.ok none
    else Except.ok (some ((splitOnChar '\n' r.stdout).dropLast))

/-- Modelled from the spec: `formatAsLocalRef` lives in `refs.ts`, outside
the excerpt.  Per the glossary ("the fully qualified ref name (e.g.,
`refs/heads/main`)") and section 4.2, the canonical local form of a branch
name `B` is `refs/heads/B`. -/
def formatAsLocalRef (name : String) : String :=
  "refs/heads/" ++ name

/-- JavaScript `Map.prototype.set` on an insertion-ordered association list:
an existing key keeps its position and gets the new value, a new key is
appended. -/
def mapSet (m : List (String × String)) (k v : String) : List (String × String) :=
  if m.any (fun p => p.1 == k) then
    m.map (fun p => if p.1 == k then (k, v) else p)
  else m ++ [(k, v)]

/-- Per-line body of the `getMergedBranches` loop (branch.ts lines 189-203):
split the line on NUL; a line without both fields is skipped; the line whose
canonical ref equals the base branch's canonical ref is skipped; otherwise
the entry is written into the map. -/
def mergedStep (canonicalBranchRef : String) (m : List (String × String))
    (line : String) : List (String × String) :=
  match splitOnChar '\x00' line with
  | sha :: canonicalRef :: _ =>
    if canonicalRef = canonicalBranchRef then m else mapSet m canonicalRef sha
  | _ => m

/-- The `getMergedBranches` parsing loop over the list of lines. -/
def processMergedLines (canonicalBranchRef : String) (lines : List String) :
    List (String × String) :=
  lines.foldl (mergedStep canonicalBranchRef) []

/-- Shallow embedding of `getMergedBranches` (branch.ts lines 169-206):
gateway call (default success exit code 0), newline-split of stdout with the
trailing element spliced off, then the per-line loop starting from an empty
map. -/
def getMergedBranches (branchName : String) (outcome : GitExecOutcome) :
    Except GitFailure (List (String × String)) :=
  (gitGateway outcome [0] []).map (fun r =>
    processMergedLines (formatAsLocalRef branchName)
      ((splitOnChar '\n' r.stdout).dropLast))

end BranchTs

namespace BranchTs

/-! Helper lemmas about the gateway and the parsing combinators. -/

theorem gitGateway_ok (raw : GitExecOutcome) (codes : List Int)
    (errs : List DugiteError) (h : raw.exitCode ∈ codes) :
    gitGateway raw codes errs =
      Except.ok { exitCode := raw.exitCode, stdout := raw.stdout, gitError := none } := by
  simp [gitGateway, h]

theorem gitGateway_expected (raw : GitExecOutcome) (codes : List Int)
    (errs : List DugiteError) (e : DugiteError) (h1 : raw.exitCode ∉ codes)
    (h2 : raw.gitError = some e) (h3 : e ∈ errs) :
    gitGateway raw codes errs =
      Except.ok { exitCode := raw.exitCode, stdout := raw.stdout, gitError := some e } := by
  simp [gitGateway, h1, h2, h3]

theorem gitGateway_classified (raw : GitExecOutcome) (codes : List Int)
    (errs : List DugiteError) (e : DugiteError) (h1 : raw.exitCode ∉ codes)
    (h2 : raw.gitError = some e) (h3 : e ∉ errs) :
    gitGateway raw codes errs = Except.error (GitFailure.classified e) := by
  simp [gitGateway, h1, h2, h3]

theorem gitGateway_unclassified (raw : GitExecOutcome) (codes : List Int)
    (errs : List DugiteError) (h1 : raw.exitCode ∉ codes)
    (h2 : raw.gitError = none) :
    gitGateway raw codes errs = Except.error (GitFailure.unexpectedExit raw.exitCode) := by
  simp [gitGateway, h1, h2]

/-- Claim C3: `getBranchesPointedAt` maps exit codes 1 and 129 to absence
(`none`), exit code 0 to a (possibly empty) list of branch short-names, and
any other exit code to a propagated error. -/
theorem getBranchesPointedAt_exit_code_classification (repository : Repository)
    (commitish : String) (outcome : GitExecOutcome) :
    (outcome.exitCode = 1 ∨ outcome.exitCode = 129 →
      getBranchesPointedAt repository commitish outcome = Except.ok none) ∧
    (outcome.exitCode = 0 →
      getBranchesPointedAt repository commitish outcome =
        Except.ok (some ((splitOnChar '\n' outcome.stdout).dropLast))) ∧
    (outcome.exitCode ≠ 0 → outcome.exitCode ≠ 1 → outcome.exitCode ≠ 129 →
      ∃ f, getBranchesPointedAt repository commitish outcome = Except.error f) := by
  refine ⟨?_, ?_, ?_⟩
  · intro h
    have hmem : outcome.exitCode ∈ ([0, 1, 129] : List Int) := by
      rcases h with h | h <;> simp [h]
    rw [getBranchesPointedAt, gitGateway_ok _ _ _ hmem]
    rcases h with h | h <;> simp [h]
  · intro h
    have hmem : outcome.exitCode ∈ ([0, 1, 129] : List Int) := by simp [h]
    rw [getBranchesPointedAt, gitGateway_ok _ _ _ hmem]
    simp [h]
  · intro h0 h1 h129
    have hmem : outcome.exitCode ∉ ([0, 1, 129] : List Int) := by
      simp [h0, h1, h129]
    rcases hg : outcome.gitError with _ | e
    · exact ⟨GitFailure.unexpectedExit outcome.exitCode, by
        rw [getBranchesPointedAt, gitGateway_unclassified _ _ _ hmem hg]⟩
    · exact ⟨GitFailure.classified e, by
        rw [getBranchesPointedAt, gitGateway_classified _ _ _ _ hmem hg (by simp)]⟩

/-- Witness for C3 at concrete outcomes: exit 1 yields absence, exit 0 with
two newline-terminated lines yields those two names, exit 2 yields an error. -/
theorem getBranchesPointedAt_exit_code_classification_witness :
    getBranchesPointedAt ⟨"/repo"⟩ "HEAD" ⟨1, "", "", none⟩ = Except.ok none ∧
    getBranchesPointedAt ⟨"/repo"⟩ "HEAD" ⟨0, "a\nb\n", "", none⟩ =
      Except.ok (some ["a", "b"]) ∧
    ∃ f, getBranchesPointedAt ⟨"/repo"⟩ "HEAD" ⟨2, "", "", none⟩ = Except.error f := by
  refine ⟨(getBranchesPointedAt_exit_code_classification ⟨"/repo"⟩ "HEAD" _).1 (Or.inl rfl),
    ?_,
    (getBranchesPointedAt_exit_code_classification ⟨"/repo"⟩ "HEAD" _).2.2
      (by decide) (by decide) (by decide)⟩
  have h := (getBranchesPointedAt_exit_code_classification ⟨"/repo"⟩ "HEAD"
    ⟨0, "a\nb\n", "", none⟩).2.1 rfl
  rw [h]
  exact rfl

/-- Claim C9: on exit code 0 the returned list is exactly the newline-split
of stdout with its final segment removed unconditionally: empty stdout gives
an empty list, and when stdout does not end in a newline the last actual
line is dropped too. -/
theorem getBranchesPointedAt_drops_final_segment (repository : Repository)
    (commitish : String) (outcome : GitExecOutcome)
    (h : outcome.exitCode = 0) :
    getBranchesPointedAt repository commitish outcome =
      Except.ok (some ((splitOnChar '\n' outcome.stdout).dropLast)) ∧
    (outcome.stdout = "" →
      getBranchesPointedAt repository commitish outcome = Except.ok (some [])) ∧
    (∀ (front : List String) (lastSeg : String),
      splitOnChar '\n' outcome.stdout = front ++ [lastSeg] →
      getBranchesPointedAt repository commitish outcome = Except.ok (some front)) := by
  have hmain := (getBranchesPointedAt_exit_code_classification repository commitish outcome).2.1 h
  refine ⟨hmain, ?_, ?_⟩
  · intro hs
    rw [hmain, hs]
    exact rfl
  · intro front lastSeg hsplit
    rw [hmain, hsplit, List.dropLast_concat]

/-- Witness for C9: stdout `"a\nb"` (no trailing newline) loses its last
actual line `"b"`, and empty stdout yields the empty list. -/
theorem getBranchesPointedAt_drops_final_segment_witness :
    getBranchesPointedAt ⟨"/repo"⟩ "HEAD" ⟨0, "a\nb", "", none⟩ =
      Except.ok (some ["a"]) ∧
    getBranchesPointedAt ⟨"/repo"⟩ "HEAD" ⟨0, "", "", none⟩ = Except.ok (some []) :=
  ⟨(getBranchesPointedAt_drops_final_segment ⟨"/repo"⟩ "HEAD" ⟨0, "a\nb", "", none⟩
      rfl).2.2 ["a"] "b" (by decide),
   (getBranchesPointedAt_drops_final_segment ⟨"/repo"⟩ "HEAD" ⟨0, "", "", none⟩
      rfl).2.1 rfl⟩

/-- Claim C5: when the start point begins with `remotes/`, the creation
command built by `createBranch` carries the `--no-track` flag, so the new
branch is not configured to track the remote branch. -/
theorem createBranch_remote_start_point_no_track (repository : Repository)
    (name : String) (startPoint : String) (env : CreateEnv)
    (h : jsStartsWith startPoint "remotes/" = true) :
    "--no-track" ∈ createBranchArgs name (some startPoint) ∧
    (createBranch repository name (some startPoint) env).1 =
      [Event.gitCmd "createBranch" (createBranchArgs name (some startPoint))] := by
  constructor
  · simp [createBranchArgs, h]
  · cases hg : gitGateway env.createOutcome [0] [] <;> simp [createBranch, hg]

/-- Witness for C5 at a concrete remote-prefixed start point. -/
theorem createBranch_remote_start_point_no_track_witness :
    "--no-track" ∈ createBranchArgs "topic" (some "remotes/origin/topic") ∧
    (createBranch ⟨"/repo"⟩ "topic" (some "remotes/origin/topic")
        ⟨⟨0, "", "", none⟩, []⟩).1 =
      [Event.gitCmd "createBranch" (createBranchArgs "topic" (some "remotes/origin/topic"))] :=
  createBranch_remote_start_point_no_track ⟨"/repo"⟩ "topic" "remotes/origin/topic"
    ⟨⟨0, "", "", none⟩, []⟩ (by decide)

end BranchTs

namespace BranchTs

/-! Lemmas about the merged-branch parsing loop. -/

theorem mem_mapSet {m : List (String × String)} {k v : String}
    {p : String × String} (hp : p ∈ mapSet m k v) : p ∈ m ∨ p = (k, v) := by
  by_cases hany : m.any (fun q => q.1 == k)
  · rw [mapSet, if_pos hany] at hp
    rcases List.mem_map.1 hp with ⟨q, hq, hfq⟩
    by_cases hqk : q.1 == k
    · right
      rw [if_pos hqk] at hfq
      exact hfq.symm
    · left
      rw [if_neg hqk] at hfq
      exact hfq ▸ hq
  · rw [mapSet, if_neg hany] at hp
    rcases List.mem_append.1 hp with h | h
    · exact Or.inl h
    · exact Or.inr (List.mem_singleton.1 h)

theorem mem_mergedStep {c : String} {m : List (String × String)} {line : String}
    {p : String × String} (hp : p ∈ mergedStep c m line) : p ∈ m ∨ p.1 ≠ c := by
  rcases hs : splitOnChar '\x00' line with _ | ⟨sha, _ | ⟨canonicalRef, rest⟩⟩
  · rw [mergedStep, hs] at hp
    exact Or.inl hp
  · rw [mergedStep, hs] at hp
    exact Or.inl hp
  · simp only [mergedStep, hs] at hp
    by_cases hc : canonicalRef = c
    · rw [if_pos hc] at hp
      exact Or.inl hp
    · rw [if_neg hc] at hp
      rcases mem_mapSet hp with h | h
      · exact Or.inl h
      · right
        rw [h]
        exact hc

theorem mem_foldl_mergedStep {c : String} :
    ∀ (lines : List String) (m : List (String × String)) (p : String × String),
      p ∈ List.foldl (mergedStep c) m lines → p ∈ m ∨ p.1 ≠ c := by
  intro lines
  induction lines with
  | nil => intro m p hp; exact Or.inl hp
  | cons l ls ih =>
    intro m p hp
    rcases ih (mergedStep c m l) p hp with h | h
    · exact mem_mergedStep h
    · exact Or.inr h

/-- Claim C4: the map produced by `getMergedBranches(repository, B)` never
contains an entry whose key is the canonical local ref `refs/heads/B` of the
base branch itself. -/
theorem getMergedBranches_excludes_base_branch (branchName : String)
    (outcome : GitExecOutcome) (m : List (String × String))
    (hm : getMergedBranches branchName outcome = Except.ok m) :
    ∀ p ∈ m, p.1 ≠ "refs/heads/" ++ branchName := by
  intro p hp
  rw [getMergedBranches] at hm
  cases hg : gitGateway outcome [0] [] with
  | error e => rw [hg] at hm; exact absurd hm (by simp [Except.map])
  | ok r =>
    rw [hg] at hm
    simp only [Except.map] at hm
    have hm' : processMergedLines (formatAsLocalRef branchName)
        ((splitOnChar '\n' r.stdout).dropLast) = m := by
      exact Except.ok.inj hm
    rw [← hm'] at hp
    rcases mem_foldl_mergedStep _ _ _ hp with h | h
    · exact absurd h (List.not_mem_nil p)
    · exact h

/-- Witness for C4: with output containing a line for `refs/heads/x` and the
query branch being `x`, the resulting map is just the `refs/heads/y` entry,
whose key differs from `refs/heads/x`. -/
theorem getMergedBranches_excludes_base_branch_witness :
    getMergedBranches "x" ⟨0, "sha1\x00refs/heads/x\nsha2\x00refs/heads/y\n", "", none⟩ =
      Except.ok [("refs/heads/y", "sha2")] ∧
    ("refs/heads/y", "sha2").1 ≠ "refs/heads/" ++ "x" :=
  ⟨rfl,
   getMergedBranches_excludes_base_branch "x"
     ⟨0, "sha1\x00refs/heads/x\nsha2\x00refs/heads/y\n", "", none⟩
     [("refs/heads/y", "sha2")] rfl ("refs/heads/y", "sha2") (by decide)⟩

theorem formatAsLocalRef_inj {a b : String}
    (h : formatAsLocalRef a = formatAsLocalRef b) : a = b := by
  have hd := congrArg String.data h
  simp only [formatAsLocalRef, String.data_append] at hd
  exact String.ext (List.append_cancel_left hd)

/-- Claim C6: on the exact two-line output
`"sha1\x00refs/heads/x\nsha2\x00refs/heads/y\n"` (for a base branch that is
neither `x` nor `y`), `getMergedBranches` returns exactly the two entries
`refs/heads/x -> sha1` and `refs/heads/y -> sha2`, in order. -/
theorem getMergedBranches_two_line_output (branchName : String)
    (outcome : GitExecOutcome) (hx : branchName ≠ "x") (hy : branchName ≠ "y")
    (hexit : outcome.exitCode = 0)
    (hout : outcome.stdout = "sha1\x00refs/heads/x\nsha2\x00refs/heads/y\n") :
    getMergedBranches branchName outcome =
      Except.ok [("refs/heads/x", "sha1"), ("refs/heads/y", "sha2")] := by
  have hcx : ("refs/heads/x" : String) ≠ formatAsLocalRef branchName := by
    intro hcontra
    exact hx (formatAsLocalRef_inj
      (show formatAsLocalRef "x" = formatAsLocalRef branchName from hcontra)).symm
  have hcy : ("refs/heads/y" : String) ≠ formatAsLocalRef branchName := by
    intro hcontra
    exact hy (formatAsLocalRef_inj
      (show formatAsLocalRef "y" = formatAsLocalRef branchName from hcontra)).symm
  rw [getMergedBranches, gitGateway_ok _ _ _ (by simp [hexit])]
  simp only [Except.map]
  rw [hout]
  have hlines : (splitOnChar '\n'
      "sha1\x00refs/heads/x\nsha2\x00refs/heads/y\n").dropLast =
      ["sha1\x00refs/heads/x", "sha2\x00refs/heads/y"] := by decide
  rw [hlines]
  have hsplit1 : splitOnChar '\x00' "sha1\x00refs/heads/x" =
      ["sha1", "refs/heads/x"] := by decide
  have hsplit2 : splitOnChar '\x00' "sha2\x00refs/heads/y" =
      ["sha2", "refs/heads/y"] := by decide
  simp only [processMergedLines, List.foldl_cons, List.foldl_nil, mergedStep,
    hsplit1, hsplit2, if_neg hcx, if_neg hcy]
  rw [show mapSet [] "refs/heads/x" "sha1" = [("refs/heads/x", "sha1")] from rfl]
  rw [show mapSet [("refs/heads/x", "sha1")] "refs/heads/y" "sha2" =
    [("refs/heads/x", "sha1"), ("refs/heads/y", "sha2")] from rfl]

/-- Witness for C6 at the base branch `main`. -/
theorem getMergedBranches_two_line_output_witness :
    getMergedBranches "main"
        ⟨0, "sha1\x00refs/heads/x\nsha2\x00refs/heads/y\n", "", none⟩ =
      Except.ok [("refs/heads/x", "sha1"), ("refs/heads/y", "sha2")] :=
  getMergedBranches_two_line_output "main"
    ⟨0, "sha1\x00refs/heads/x\nsha2\x00refs/heads/y\n", "", none⟩
    (by decide) (by decide) rfl rfl

theorem mergedStep_malformed {c : String} (m : List (String × String))
    {bad : String} (hbad : (splitOnChar '\x00' bad).length ≤ 1) :
    mergedStep c m bad = m := by
  rcases hs : splitOnChar '\x00' bad with _ | ⟨a, _ | ⟨b, rest⟩⟩
  · rw [mergedStep, hs]
  · rw [mergedStep, hs]
  · rw [hs] at hbad
    simp at hbad

/-- Claim C7: a merged-branch output line that does not split into both a
sha and a canonical-ref field contributes no entry and does not interrupt
the parsing of the surrounding lines: the result is the same as if that line
were absent. -/
theorem getMergedBranches_skips_malformed_line (branchName : String)
    (outcome : GitExecOutcome) (pre post : List String) (bad : String)
    (hexit : outcome.exitCode = 0)
    (hlines : (splitOnChar '\n' outcome.stdout).dropLast = pre ++ bad :: post)
    (hbad : (splitOnChar '\x00' bad).length ≤ 1) :
    getMergedBranches branchName outcome =
      Except.ok (processMergedLines (formatAsLocalRef branchName) (pre ++ post)) := by
  rw [getMergedBranches, gitGateway_ok _ _ _ (by simp [hexit])]
  simp only [Except.map]
  rw [hlines]
  simp only [processMergedLines, List.foldl_append, List.foldl_cons]
  rw [mergedStep_malformed _ hbad]

/-- Witness for C7: an output with a NUL-free middle line `bad` parses to
the same map as the output without it; both entries around it survive. -/
theorem getMergedBranches_skips_malformed_line_witness :
    getMergedBranches "main"
        ⟨0, "sha1\x00refs/heads/x\nbad\nsha2\x00refs/heads/y\n", "", none⟩ =
      Except.ok (processMergedLines (formatAsLocalRef "main")
        (["sha1\x00refs/heads/x"] ++ ["sha2\x00refs/heads/y"])) :=
  getMergedBranches_skips_malformed_line "main"
    ⟨0, "sha1\x00refs/heads/x\nbad\nsha2\x00refs/heads/y\n", "", none⟩
    ["sha1\x00refs/heads/x"] ["sha2\x00refs/heads/y"] "bad"
    rfl (by decide) (by decide)

end BranchTs

namespace BranchTs

/-! Lemmas about the remote half of `deleteBranch` and the overall flow. -/

theorem remoteDeletionStep_reconciles (branch : Branch) (r : String) (env : DeleteEnv)
    (hpush : env.pushOutcome.exitCode ≠ 0)
    (herr : env.pushOutcome.gitError = some DugiteError.BranchDeletionFailed)
    (href : env.deleteRefOutcome = Except.ok ()) :
    (remoteDeletionStep branch r env).2 = Except.ok true ∧
    Event.deleteRefCall ("refs/remotes/" ++ r ++ "/" ++ branch.nameWithoutRemote) ∈
      (remoteDeletionStep branch r env).1 := by
  have hg := gitGateway_expected env.pushOutcome [0] [DugiteError.BranchDeletionFailed]
    DugiteError.BranchDeletionFailed (by simp [hpush]) herr (by simp)
  constructor <;> simp [remoteDeletionStep, hg, href]

theorem remoteDeletionStep_propagates (branch : Branch) (r : String) (env : DeleteEnv)
    (e : DugiteError) (hpush : env.pushOutcome.exitCode ≠ 0)
    (herr : env.pushOutcome.gitError = some e)
    (hne : e ≠ DugiteError.BranchDeletionFailed) :
    (remoteDeletionStep branch r env).2 = Except.error (GitFailure.classified e) ∧
    ∀ ref, Event.deleteRefCall ref ∉ (remoteDeletionStep branch r env).1 := by
  have hg := gitGateway_classified env.pushOutcome [0] [DugiteError.BranchDeletionFailed]
    e (by simp [hpush]) herr (by simp [hne])
  constructor
  · simp [remoteDeletionStep, hg]
  · intro ref
    rcases hu : env.remoteURLOutcome with s | o <;> simp [remoteDeletionStep, hg, hu]

theorem remoteDeletionStep_snd_eq (branch : Branch) (r : String)
    (env env' : DeleteEnv) (hpush : env'.pushOutcome = env.pushOutcome)
    (href : env'.deleteRefOutcome = env.deleteRefOutcome) :
    (remoteDeletionStep branch r env').2 = (remoteDeletionStep branch r env).2 := by
  cases hg : gitGateway env.pushOutcome [0] [DugiteError.BranchDeletionFailed] with
  | error e => simp [remoteDeletionStep, hpush, href, hg]
  | ok res =>
    by_cases hb : res.gitError = some DugiteError.BranchDeletionFailed
    · cases hd : env.deleteRefOutcome <;>
        simp [remoteDeletionStep, hpush, href, hg, hb, hd]
    · simp [remoteDeletionStep, hpush, href, hg, hb]

theorem remoteDeletionStep_url_fallback (branch : Branch) (r : String)
    (env : DeleteEnv) (err : String)
    (hurl : env.remoteURLOutcome = Except.error err) :
    Event.logError ("Could not resolve remote url for remote " ++ r) ∈
      (remoteDeletionStep branch r env).1 ∧
    ∀ args url, Event.push args url ∈ (remoteDeletionStep branch r env).1 →
      url = env.fallbackUrl := by
  constructor
  · cases hg : gitGateway env.pushOutcome [0] [DugiteError.BranchDeletionFailed] with
    | error e => simp [remoteDeletionStep, hurl, hg]
    | ok res =>
      by_cases hb : res.gitError = some DugiteError.BranchDeletionFailed
      · cases hd : env.deleteRefOutcome <;> simp [remoteDeletionStep, hurl, hg, hb, hd]
      · simp [remoteDeletionStep, hurl, hg, hb]
  · intro args url hmem
    cases hg : gitGateway env.pushOutcome [0] [DugiteError.BranchDeletionFailed] with
    | error e =>
      simp [remoteDeletionStep, hurl, hg] at hmem
      exact hmem.2
    | ok res =>
      by_cases hb : res.gitError = some DugiteError.BranchDeletionFailed
      · cases hd : env.deleteRefOutcome with
        | error e2 =>
          simp [remoteDeletionStep, hurl, hg, hb, hd] at hmem
          exact hmem.2
        | ok u =>
          simp [remoteDeletionStep, hurl, hg, hb, hd] at hmem
          exact hmem.2
      · simp [remoteDeletionStep, hurl, hg, hb] at hmem
        exact hmem.2

theorem deleteBranch_remote_path (repository : Repository) (branch : Branch)
    (account : Option IGitAccount) (env : DeleteEnv) (r : String)
    (hr : branch.remote = some r) (hr0 : r ≠ "")
    (hlocal : env.deleteLocalOutcome.exitCode = 0) :
    deleteBranch repository branch account true env =
      ((if branch.type = BranchType.Local then
          [Event.gitCmd "deleteLocalBranch" ["branch", "-D", branch.name]] else []) ++
        (remoteDeletionStep branch r env).1,
       (remoteDeletionStep branch r env).2) := by
  have hg := gitGateway_ok env.deleteLocalOutcome [0] [] (by simp [hlocal])
  cases ht : branch.type with
  | Local => simp [deleteBranch, ht, deleteLocalBranch, hg, Except.map, hr, hr0]
  | Remote => simp [deleteBranch, ht, hr, hr0]

end BranchTs

namespace BranchTs

/-- Claim C1: when `deleteBranch` is called with `includeRemote = true` on a
branch with an associated remote and the remote push fails with the
classified `BranchDeletionFailed` error, the local tracking ref
`refs/remotes/<remote>/<nameWithoutRemote>` is deleted via `deleteRef` and
the operation still returns `true`. -/
theorem deleteBranch_reconciles_when_remote_branch_already_deleted
    (repository : Repository) (branch : Branch) (account : Option IGitAccount)
    (env : DeleteEnv) (r : String)
    (hr : branch.remote = some r) (hr0 : r ≠ "")
    (hlocal : env.deleteLocalOutcome.exitCode = 0)
    (hpush : env.pushOutcome.exitCode ≠ 0)
    (herr : env.pushOutcome.gitError = some DugiteError.BranchDeletionFailed)
    (href : env.deleteRefOutcome = Except.ok ()) :
    (deleteBranch repository branch account true env).2 = Except.ok true ∧
    Event.deleteRefCall ("refs/remotes/" ++ r ++ "/" ++ branch.nameWithoutRemote) ∈
      (deleteBranch repository branch account true env).1 := by
  rw [deleteBranch_remote_path repository branch account env r hr hr0 hlocal]
  rcases remoteDeletionStep_reconciles branch r env hpush herr href with ⟨h2, h1⟩
  exact ⟨h2, List.mem_append.mpr (Or.inr h1)⟩

/-- Witness for C1: a local branch tracking `origin`, push failing with the
branch-deletion-failed classification; the tracking ref is deleted and the
call reports success. -/
theorem deleteBranch_reconciles_when_remote_branch_already_deleted_witness :
    (deleteBranch ⟨"/repo"⟩ ⟨"feature", "feature", BranchType.Local, some "origin"⟩
        none true
        ⟨⟨0, "", "", none⟩, ["-c", "http.proxy=p"], Except.ok (some "https://h/r.git"),
          "https://fb/r.git", ⟨1, "", "remote ref does not exist",
          some DugiteError.BranchDeletionFailed⟩, Except.ok ()⟩).2 = Except.ok true ∧
    Event.deleteRefCall ("refs/remotes/" ++ "origin" ++ "/" ++ "feature") ∈
      (deleteBranch ⟨"/repo"⟩ ⟨"feature", "feature", BranchType.Local, some "origin"⟩
        none true
        ⟨⟨0, "", "", none⟩, ["-c", "http.proxy=p"], Except.ok (some "https://h/r.git"),
          "https://fb/r.git", ⟨1, "", "remote ref does not exist",
          some DugiteError.BranchDeletionFailed⟩, Except.ok ()⟩).1 :=
  deleteBranch_reconciles_when_remote_branch_already_deleted ⟨"/repo"⟩
    ⟨"feature", "feature", BranchType.Local, some "origin"⟩ none
    ⟨⟨0, "", "", none⟩, ["-c", "http.proxy=p"], Except.ok (some "https://h/r.git"),
      "https://fb/r.git", ⟨1, "", "remote ref does not exist",
      some DugiteError.BranchDeletionFailed⟩, Except.ok ()⟩ "origin"
    rfl (by decide) rfl (by decide) rfl rfl

/-- Claim C2: when the remote push of `deleteBranch` with
`includeRemote = true` fails with any classified error other than
`BranchDeletionFailed` (for example an authentication failure), the error
propagates to the caller unmodified and no `deleteRef` reconciliation is
attempted. -/
theorem deleteBranch_propagates_unexpected_push_error
    (repository : Repository) (branch : Branch) (account : Option IGitAccount)
    (env : DeleteEnv) (r : String) (e : DugiteError)
    (hr : branch.remote = some r) (hr0 : r ≠ "")
    (hlocal : env.deleteLocalOutcome.exitCode = 0)
    (hpush : env.pushOutcome.exitCode ≠ 0)
    (herr : env.pushOutcome.gitError = some e)
    (hne : e ≠ DugiteError.BranchDeletionFailed) :
    (deleteBranch repository branch account true env).2 =
      Except.error (GitFailure.classified e) ∧
    ∀ ref, Event.deleteRefCall ref ∉ (deleteBranch repository branch account true env).1 := by
  rw [deleteBranch_remote_path repository branch account env r hr hr0 hlocal]
  rcases remoteDeletionStep_propagates branch r env e hpush herr hne with ⟨h2, h1⟩
  refine ⟨h2, ?_⟩
  intro ref hmem
  rcases List.mem_append.1 hmem with h | h
  · cases htype : branch.type <;> simp [htype] at h
  · exact h1 ref h

/-- Witness for C2: an HTTPS authentication failure on the push propagates
as the classified error and the tracking ref is not touched. -/
theorem deleteBranch_propagates_unexpected_push_error_witness :
    (deleteBranch ⟨"/repo"⟩ ⟨"feature", "feature", BranchType.Local, some "origin"⟩
        none true
        ⟨⟨0, "", "", none⟩, ["-c", "http.proxy=p"], Except.ok (some "https://h/r.git"),
          "https://fb/r.git", ⟨128, "", "fatal: Authentication failed",
          some DugiteError.HTTPSAuthenticationFailed⟩, Except.ok ()⟩).2 =
      Except.error (GitFailure.classified DugiteError.HTTPSAuthenticationFailed) ∧
    Event.deleteRefCall "refs/remotes/origin/feature" ∉
      (deleteBranch ⟨"/repo"⟩ ⟨"feature", "feature", BranchType.Local, some "origin"⟩
        none true
        ⟨⟨0, "", "", none⟩, ["-c", "http.proxy=p"], Except.ok (some "https://h/r.git"),
          "https://fb/r.git", ⟨128, "", "fatal: Authentication failed",
          some DugiteError.HTTPSAuthenticationFailed⟩, Except.ok ()⟩).1 :=
  ⟨(deleteBranch_propagates_unexpected_push_error ⟨"/repo"⟩
      ⟨"feature", "feature", BranchType.Local, some "origin"⟩ none
      ⟨⟨0, "", "", none⟩, ["-c", "http.proxy=p"], Except.ok (some "https://h/r.git"),
        "https://fb/r.git", ⟨128, "", "fatal: Authentication failed",
        some DugiteError.HTTPSAuthenticationFailed⟩, Except.ok ()⟩ "origin"
      DugiteError.HTTPSAuthenticationFailed rfl (by decide) rfl (by decide) rfl
      (by decide)).1,
   (deleteBranch_propagates_unexpected_push_error ⟨"/repo"⟩
      ⟨"feature", "feature", BranchType.Local, some "origin"⟩ none
      ⟨⟨0, "", "", none⟩, ["-c", "http.proxy=p"], Except.ok (some "https://h/r.git"),
        "https://fb/r.git", ⟨128, "", "fatal: Authentication failed",
        some DugiteError.HTTPSAuthenticationFailed⟩, Except.ok ()⟩ "origin"
      DugiteError.HTTPSAuthenticationFailed rfl (by decide) rfl (by decide) rfl
      (by decide)).2 "refs/remotes/origin/feature"⟩

/-- Claim C8: when the remote URL lookup fails during a remote-inclusive
deletion, the failure is logged, the fallback proxy-resolution URL is the
one handed to the push environment, and the lookup failure does not change
the outcome of the deletion (same result as a `null` lookup). -/
theorem deleteBranch_url_resolution_fallback
    (repository : Repository) (branch : Branch) (account : Option IGitAccount)
    (env : DeleteEnv) (r : String) (err : String)
    (hr : branch.remote = some r) (hr0 : r ≠ "")
    (hlocal : env.deleteLocalOutcome.exitCode = 0)
    (hurl : env.remoteURLOutcome = Except.error err) :
    Event.logError ("Could not resolve remote url for remote " ++ r) ∈
      (deleteBranch repository branch account true env).1 ∧
    (∀ args url, Event.push args url ∈ (deleteBranch repository branch account true env).1 →
      url = env.fallbackUrl) ∧
    (deleteBranch repository branch account true env).2 =
      (deleteBranch repository branch account true
        { env with remoteURLOutcome := Except.ok none }).2 := by
  rw [deleteBranch_remote_path repository branch account env r hr hr0 hlocal,
    deleteBranch_remote_path repository branch account
      { env with remoteURLOutcome := Except.ok none } r hr hr0 hlocal]
  refine ⟨?_, ?_, ?_⟩
  · exact List.mem_append.mpr
      (Or.inr (remoteDeletionStep_url_fallback branch r env err hurl).1)
  · intro args url hmem
    rcases List.mem_append.1 hmem with h | h
    · cases htype : branch.type <;> simp [htype] at h
    · exact (remoteDeletionStep_url_fallback branch r env err hurl).2 args url h
  · exact (remoteDeletionStep_snd_eq branch r env
      { env with remoteURLOutcome := Except.ok none } rfl rfl).symm

/-- Witness for C8: concrete deletion whose URL lookup rejects; the log line
is present, the push uses the fallback URL, and the result matches the
`null`-lookup run. -/
theorem deleteBranch_url_resolution_fallback_witness :
    Event.logError ("Could not resolve remote url for remote " ++ "origin") ∈
      (deleteBranch ⟨"/repo"⟩ ⟨"feature", "feature", BranchType.Local, some "origin"⟩
        none true
        ⟨⟨0, "", "", none⟩, ["-c", "http.proxy=p"], Except.error "lookup failed",
          "https://fb/r.git", ⟨0, "", "", none⟩, Except.ok ()⟩).1 ∧
    (deleteBranch ⟨"/repo"⟩ ⟨"feature", "feature", BranchType.Local, some "origin"⟩
        none true
        ⟨⟨0, "", "", none⟩, ["-c", "http.proxy=p"], Except.error "lookup failed",
          "https://fb/r.git", ⟨0, "", "", none⟩, Except.ok ()⟩).2 =
      (deleteBranch ⟨"/repo"⟩ ⟨"feature", "feature", BranchType.Local, some "origin"⟩
        none true
        ⟨⟨0, "", "", none⟩, ["-c", "http.proxy=p"], Except.ok none,
          "https://fb/r.git", ⟨0, "", "", none⟩, Except.ok ()⟩).2 :=
  ⟨(deleteBranch_url_resolution_fallback ⟨"/repo"⟩
      ⟨"feature", "feature", BranchType.Local, some "origin"⟩ none
      ⟨⟨0, "", "", none⟩, ["-c", "http.proxy=p"], Except.error "lookup failed",
        "https://fb/r.git", ⟨0, "", "", none⟩, Except.ok ()⟩ "origin" "lookup failed"
      rfl (by decide) rfl rfl).1,
   (deleteBranch_url_resolution_fallback ⟨"/repo"⟩
      ⟨"feature", "feature", BranchType.Local, some "origin"⟩ none
      ⟨⟨0, "", "", none⟩, ["-c", "http.proxy=p"], Except.error "lookup failed",
        "https://fb/r.git", ⟨0, "", "", none⟩, Except.ok ()⟩ "origin" "lookup failed"
      rfl (by decide) rfl rfl).2.2⟩

/-- Claim C10: when `includeRemote` is false or the branch has no associated
remote, `deleteBranch` resolves no network arguments, performs no push and
no `deleteRef`; and when additionally the branch is not Local, it executes
no command at all and returns `true`. -/
theorem deleteBranch_no_remote_frame (repository : Repository) (branch : Branch)
    (account : Option IGitAccount) (includeRemote : Bool) (env : DeleteEnv)
    (h : includeRemote = false ∨ branch.remote = none) :
    (∀ args url, Event.push args url ∉
      (deleteBranch repository branch account includeRemote env).1) ∧
    Event.networkArgsResolved ∉
      (deleteBranch repository branch account includeRemote env).1 ∧
    (∀ ref, Event.deleteRefCall ref ∉
      (deleteBranch repository branch account includeRemote env).1) ∧
    (branch.type ≠ BranchType.Local →
      deleteBranch repository branch account includeRemote env = ([], Except.ok true)) := by
  have htrace : (deleteBranch repository branch account includeRemote env).1 =
      (if branch.type = BranchType.Local then
        [Event.gitCmd "deleteLocalBranch" ["branch", "-D", branch.name]] else []) := by
    rcases h with h | h
    · subst h
      cases htype : branch.type <;> cases hrem : branch.remote <;>
        cases hg : gitGateway env.deleteLocalOutcome [0] [] <;>
          simp [deleteBranch, deleteLocalBranch, htype, hrem, hg, Except.map]
    · cases hinc : includeRemote <;> cases htype : branch.type <;>
        cases hg : gitGateway env.deleteLocalOutcome [0] [] <;>
          simp [deleteBranch, deleteLocalBranch, htype, h, hg, Except.map]
  refine ⟨?_, ?_, ?_, ?_⟩
  · intro args url hmem
    rw [htrace] at hmem
    cases htype : branch.type <;> simp [htype] at hmem
  · intro hmem
    rw [htrace] at hmem
    cases htype : branch.type <;> simp [htype] at hmem
  · intro ref hmem
    rw [htrace] at hmem
    cases htype : branch.type <;> simp [htype] at hmem
  · intro hnl
    cases htype : branch.type with
    | Local => exact absurd htype hnl
    | Remote =>
      rcases h with h | h
      · subst h
        cases hrem : branch.remote <;> simp [deleteBranch, htype, hrem]
      · cases hinc : includeRemote <;> simp [deleteBranch, htype, h]

/-- Witness for C10: a remote-type branch deleted with
`includeRemote = false` produces no events at all and returns `true`. -/
theorem deleteBranch_no_remote_frame_witness :
    Event.push ["push", "origin", ":feature"] "u" ∉
      (deleteBranch ⟨"/repo"⟩ ⟨"origin/feature", "feature", BranchType.Remote, some "origin"⟩
        none false
        ⟨⟨0, "", "", none⟩, [], Except.ok none, "https://fb/r.git",
          ⟨0, "", "", none⟩, Except.ok ()⟩).1 ∧
    Event.networkArgsResolved ∉
      (deleteBranch ⟨"/repo"⟩ ⟨"origin/feature", "feature", BranchType.Remote, some "origin"⟩
        none false
        ⟨⟨0, "", "", none⟩, [], Except.ok none, "https://fb/r.git",
          ⟨0, "", "", none⟩, Except.ok ()⟩).1 ∧
    Event.deleteRefCall "refs/remotes/origin/feature" ∉
      (deleteBranch ⟨"/repo"⟩ ⟨"origin/feature", "feature", BranchType.Remote, some "origin"⟩
        none false
        ⟨⟨0, "", "", none⟩, [], Except.ok none, "https://fb/r.git",
          ⟨0, "", "", none⟩, Except.ok ()⟩).1 ∧
    deleteBranch ⟨"/repo"⟩ ⟨"origin/feature", "feature", BranchType.Remote, some "origin"⟩
        none false
        ⟨⟨0, "", "", none⟩, [], Except.ok none, "https://fb/r.git",
          ⟨0, "", "", none⟩, Except.ok ()⟩ = ([], Except.ok true) :=
  ⟨(deleteBranch_no_remote_frame ⟨"/repo"⟩
      ⟨"origin/feature", "feature", BranchType.Remote, some "origin"⟩ none false
      ⟨⟨0, "", "", none⟩, [], Except.ok none, "https://fb/r.git",
        ⟨0, "", "", none⟩, Except.ok ()⟩ (Or.inl rfl)).1 ["push", "origin", ":feature"] "u",
   (deleteBranch_no_remote_frame ⟨"/repo"⟩
      ⟨"origin/feature", "feature", BranchType.Remote, some "origin"⟩ none false
      ⟨⟨0, "", "", none⟩, [], Except.ok none, "https://fb/r.git",
        ⟨0, "", "", none⟩, Except.ok ()⟩ (Or.inl rfl)).2.1,
   (deleteBranch_no_remote_frame ⟨"/repo"⟩
      ⟨"origin/feature", "feature", BranchType.Remote, some "origin"⟩ none false
      ⟨⟨0, "", "", none⟩, [], Except.ok none, "https://fb/r.git",
        ⟨0, "", "", none⟩, Except.ok ()⟩ (Or.inl rfl)).2.2.1 "refs/remotes/origin/feature",
   (deleteBranch_no_remote_frame ⟨"/repo"⟩
      ⟨"origin/feature", "feature", BranchType.Remote, some "origin"⟩ none false
      ⟨⟨0, "", "", none⟩, [], Except.ok none, "https://fb/r.git",
        ⟨0, "", "", none⟩, Except.ok ()⟩ (Or.inl rfl)).2.2.2 (by decide)⟩

end BranchTs
